import Mathlib

/-!
Verification of the `ape-mbr` crate: a shallow embedding of `src/lib.rs`
and `src/types.rs` (MBR partition-table decoder and bounded partition
window over a block device), together with theorems settling the spec
claims about it.

Machine integers are modelled as `Nat` (for `u64`/`u32`/`u8`/`usize`)
and `Int` (for `i64`), with wrap-around made explicit by `% 2^64`
(respectively a two's-complement wrap for `i64`), mirroring the release
overflow semantics of the Rust source.
-/

/-- Length of each record in bytes (`RECORD_LEN`). -/
def RECORD_LEN : Nat := 16

/-- Number of records in the MBR (`RECORD_COUNT`). -/
def RECORD_COUNT : Nat := 4

/-- Size of blocks in bytes (`BLOCK_SIZE`). -/
def BLOCK_SIZE : Nat := 512

/-- Offset to the start of the partition records (`RECORDS_START`). -/
def RECORDS_START : Nat := 0x1be

/-- Modulus of `u64` arithmetic. -/
def U64_MOD : Nat := 2 ^ 64

/-- Rust `u64` addition (wrapping, release semantics). -/
def u64add (a b : Nat) : Nat := (a + b) % U64_MOD

/-- Rust `u64` subtraction (wrapping, release semantics). -/
def u64sub (a b : Nat) : Nat := (a + U64_MOD - b) % U64_MOD

/-- Rust `u64` multiplication (wrapping, release semantics). -/
def u64mul (a b : Nat) : Nat := a * b % U64_MOD

/-- Two's-complement wrap of an integer into the `i64` range. -/
def wrapI64 (x : Int) : Int := (x + 2 ^ 63) % 2 ^ 64 - 2 ^ 63

/-- Rust `as`-cast of a `u64` value (a `Nat` below `2^64`) to `i64`. -/
def u64_as_i64 (n : Nat) : Int := wrapI64 n

/-- Rust `as`-cast of an `i64` value to `u64` (reduce mod `2^64`). -/
def i64_as_u64 (x : Int) : Nat := (x % (2 ^ 64 : Int)).toNat

/-- The partition types of `src/types.rs` (`PartitionType`), one
constructor per variant of the Rust enum. -/
inductive PartitionType where
  | Unknown
  | Fat12
  | XenixRoot
  | XenixUsr
  | Fat16Lt32
  | Extended
  | Fat16
  | Ntfs
  | Aix
  | AixBootable
  | Os2BootManag
  | W95Fat32
  | W95Fat32Lba
  | W95Fat16Lba
  | W95ExtendedLba
  | Opus
  | HiddenFat12
  | CompaqDiagnostic
  | HiddenFat16Lt32
  | HiddenFat16
  | HiddenNtfs
  | AstSmartsleep
  | HiddenW95Fat32
  | HiddenW95Fat32Lba
  | HiddenW95Fat16Lba
  | NecDos
  | HiddenWinNtfs
  | Plan9
  | PartitionMagic
  | Venix80286
  | PpcPrepBoot
  | Sfs
  | Qnx4X
  | Qnx4XPart2
  | Qnx4XPart3
  | OntrackDm
  | OntrackDm6Aux1
  | Cpm
  | OntrackDm6Aux3
  | OntrackDm6Ddo
  | EzDrive
  | GoldenBow
  | PriamEdisk
  | SpeedStor
  | GnuHurd
  | NovellNetware286
  | NovellNetware386
  | NovellSMS
  | NovellNetware5P
  | DiskSecureMultiBoot
  | Scramdisk
  | PcIx
  | OldMinix
  | Minix
  | LinuxSwap
  | Linux
  | Os2HiddenCDrive
  | LinuxExtended
  | NftsVolumeSet1
  | NftsVolumeSet2
  | LinuxKernelPartition
  | LegacyFaultTolerantFat32
  | LegacyFaultTolerantFat32Int13h
  | LinuxLvm
  | Amoeba
  | AmoebaBbt
  | BsdOs
  | ThinkpadHibernation
  | FreeBSD
  | OpenBSD
  | NeXTSTEP
  | DarwinUFS
  | NetBSD
  | DarwinBoot
  | HFS
  | BsdiFs
  | BsdiSwap
  | BootWizardHidden
  | AcronisFat32
  | Solaris8Boot
  | Solaris
  | DrDosSecFat12
  | DrDosSecFat16Lt32
  | DrDosSecExt
  | DrDosSecFat16
  | Syrinx
  | NoFsData
  | CpmCtos
  | DellUti
  | BootIt
  | DosAccess
  | DosRo
  | SpeedStor2
  | LinuxExtended2
  | BeOsFs
  | GPT
  | EFI
  | LinuxPaRiscBl
  | SpeedStor3
  | SpeedStor4
  | DosSecondary
  | EbbrProtective
  | VMWareVmfs
  | VMWareVmkcore
  | LinuxRaidAuto
  | LanStep
  | Bbt
  deriving DecidableEq

/-- The `TryFromPrimitive` conversion of `PartitionType`: maps a
system-id byte to its variant when the byte has a discriminant in
`src/types.rs`, and fails (`none`) otherwise. -/
def partitionTypeFromByte (b : Nat) : Option PartitionType :=
  match b with
  | 0x00 => some .Unknown
  | 0x01 => some .Fat12
  | 0x02 => some .XenixRoot
  | 0x03 => some .XenixUsr
  | 0x04 => some .Fat16Lt32
  | 0x05 => some .Extended
  | 0x06 => some .Fat16
  | 0x07 => some .Ntfs
  | 0x08 => some .Aix
  | 0x09 => some .AixBootable
  | 0x0a => some .Os2BootManag
  | 0x0b => some .W95Fat32
  | 0x0c => some .W95Fat32Lba
  | 0x0e => some .W95Fat16Lba
  | 0x0f => some .W95ExtendedLba
  | 0x10 => some .Opus
  | 0x11 => some .HiddenFat12
  | 0x12 => some .CompaqDiagnostic
  | 0x14 => some .HiddenFat16Lt32
  | 0x16 => some .HiddenFat16
  | 0x17 => some .HiddenNtfs
  | 0x18 => some .AstSmartsleep
  | 0x1b => some .HiddenW95Fat32
  | 0x1c => some .HiddenW95Fat32Lba
  | 0x1e => some .HiddenW95Fat16Lba
  | 0x24 => some .NecDos
  | 0x27 => some .HiddenWinNtfs
  | 0x39 => some .Plan9
  | 0x3c => some .PartitionMagic
  | 0x40 => some .Venix80286
  | 0x41 => some .PpcPrepBoot
  | 0x42 => some .Sfs
  | 0x4d => some .Qnx4X
  | 0x4e => some .Qnx4XPart2
  | 0x4f => some .Qnx4XPart3
  | 0x50 => some .OntrackDm
  | 0x51 => some .OntrackDm6Aux1
  | 0x52 => some .Cpm
  | 0x53 => some .OntrackDm6Aux3
  | 0x54 => some .OntrackDm6Ddo
  | 0x55 => some .EzDrive
  | 0x56 => some .GoldenBow
  | 0x5c => some .PriamEdisk
  | 0x61 => some .SpeedStor
  | 0x63 => some .GnuHurd
  | 0x64 => some .NovellNetware286
  | 0x65 => some .NovellNetware386
  | 0x66 => some .NovellSMS
  | 0x69 => some .NovellNetware5P
  | 0x70 => some .DiskSecureMultiBoot
  | 0x74 => some .Scramdisk
  | 0x75 => some .PcIx
  | 0x80 => some .OldMinix
  | 0x81 => some .Minix
  | 0x82 => some .LinuxSwap
  | 0x83 => some .Linux
  | 0x84 => some .Os2HiddenCDrive
  | 0x85 => some .LinuxExtended
  | 0x86 => some .NftsVolumeSet1
  | 0x87 => some .NftsVolumeSet2
  | 0x8a => some .LinuxKernelPartition
  | 0x8b => some .LegacyFaultTolerantFat32
  | 0x8c => some .LegacyFaultTolerantFat32Int13h
  | 0x8e => some .LinuxLvm
  | 0x93 => some .Amoeba
  | 0x94 => some .AmoebaBbt
  | 0x9f => some .BsdOs
  | 0xa0 => some .ThinkpadHibernation
  | 0xa5 => some .FreeBSD
  | 0xa6 => some .OpenBSD
  | 0xa7 => some .NeXTSTEP
  | 0xa8 => some .DarwinUFS
  | 0xa9 => some .NetBSD
  | 0xab => some .DarwinBoot
  | 0xaf => some .HFS
  | 0xb7 => some .BsdiFs
  | 0xb8 => some .BsdiSwap
  | 0xbb => some .BootWizardHidden
  | 0xbc => some .AcronisFat32
  | 0xbe => some .Solaris8Boot
  | 0xbf => some .Solaris
  | 0xc1 => some .DrDosSecFat12
  | 0xc2 => some .DrDosSecFat16Lt32
  | 0xc5 => some .DrDosSecExt
  | 0xc6 => some .DrDosSecFat16
  | 0xc7 => some .Syrinx
  | 0xda => some .NoFsData
  | 0xdb => some .CpmCtos
  | 0xde => some .DellUti
  | 0xdf => some .BootIt
  | 0xe1 => some .DosAccess
  | 0xe3 => some .DosRo
  | 0xe4 => some .SpeedStor2
  | 0xea => some .LinuxExtended2
  | 0xeb => some .BeOsFs
  | 0xee => some .GPT
  | 0xef => some .EFI
  | 0xf0 => some .LinuxPaRiscBl
  | 0xf1 => some .SpeedStor3
  | 0xf4 => some .SpeedStor4
  | 0xf2 => some .DosSecondary
  | 0xf8 => some .EbbrProtective
  | 0xfb => some .VMWareVmfs
  | 0xfc => some .VMWareVmkcore
  | 0xfd => some .LinuxRaidAuto
  | 0xfe => some .LanStep
  | 0xff => some .Bbt
  | _ => none

/-- The `u32::from_le_bytes` conversion on four byte values. -/
def from_le_bytes (b0 b1 b2 b3 : Nat) : Nat :=
  b0 + b1 * 2 ^ 8 + b2 * 2 ^ 16 + b3 * 2 ^ 24

/-- Data stored about one partition (`PartitionRecord`). -/
structure PartitionRecord where
  relative_sector : Nat
  total_sectors : Nat
  partition_type : PartitionType
  boot_flag : Bool
  deriving DecidableEq

/-- Create a partition record from 16 bytes
(`PartitionRecord::from_bytes`); `bytes j` is byte `j` of the record.
The `system_id.try_into().unwrap()` of the source panics when the
system-id byte has no `PartitionType` discriminant; that divergence is
modelled as `none`. -/
def PartitionRecord.from_bytes (bytes : Nat → Nat) : Option PartitionRecord :=
  let relative_sector := from_le_bytes (bytes 8) (bytes 9) (bytes 10) (bytes 11)
  let total_sectors := from_le_bytes (bytes 12) (bytes 13) (bytes 14) (bytes 15)
  let boot_flag : Bool := bytes 0 == 0x80
  match partitionTypeFromByte (bytes 4) with
  | some t => some ⟨relative_sector, total_sectors, t, boot_flag⟩
  | none => none

/-- Convert an LBA address to a `u64` (`lba_to_u64`): multiply the
32-bit sector index by the block size in `u64` arithmetic. -/
def lba_to_u64 (lba : Nat) : Nat := u64mul lba BLOCK_SIZE

/-- Get the starting byte position of a partition
(`PartitionRecord::get_start_pos`). -/
def PartitionRecord.get_start_pos (r : PartitionRecord) : Nat :=
  lba_to_u64 r.relative_sector

/-- Get the end byte position of a partition
(`PartitionRecord::get_end_pos`). -/
def PartitionRecord.get_end_pos (r : PartitionRecord) : Nat :=
  u64add (lba_to_u64 r.relative_sector) (lba_to_u64 r.total_sectors)

/-- Get the type of a partition (`PartitionRecord::get_partition_type`). -/
def PartitionRecord.get_partition_type (r : PartitionRecord) : PartitionType :=
  r.partition_type

/-- Check whether the partition's boot flag is set
(`PartitionRecord::is_bootable`). -/
def PartitionRecord.is_bootable (r : PartitionRecord) : Bool :=
  r.boot_flag

/-- Model of a concrete backing block device (such as the `Cursor`
used by the crate's tests): byte `data i` lives at absolute offset
`i`, the device holds `size` bytes, and `pos` is its cursor. -/
structure Dev where
  data : Nat → Nat
  size : Nat
  pos : Nat

/-- Absolute seek on the backing device: positions the cursor. -/
def Dev.seek (d : Dev) (p : Nat) : Dev × Nat :=
  (⟨d.data, d.size, p⟩, p)

/-- Read `n` bytes from the backing device into a zero-initialised
buffer, embedded-io style: at most `size - pos` bytes are available,
so the returned count may be short; the returned buffer function gives
the buffer contents after the read (reads of byte values are reduced
`% 256` since stored data are bytes). -/
def Dev.read (d : Dev) (n : Nat) : Dev × (Nat → Nat) × Nat :=
  let cnt := min n (d.size - d.pos)
  (⟨d.data, d.size, d.pos + cnt⟩, fun j => if j < cnt then d.data (d.pos + j) % 256 else 0, cnt)

/-- Interface of an underlying `embedded_io` device as the partition
window uses it: each operation takes the device state and a request
(byte count for read/write, absolute position for seek) and returns
the new state with either a transferred count / reached position or a
device error. -/
structure IoModel (σ : Type) where
  read : σ → Nat → σ × Except Unit Nat
  write : σ → Nat → σ × Except Unit Nat
  seek : σ → Nat → σ × Except Unit Nat

/-- The `IoModel` of a fully-responsive backing device: every request
succeeds in full. Used to run the window operations on concrete
inputs. -/
def ioDev : IoModel Dev where
  read := fun d n => (⟨d.data, d.size, d.pos + n⟩, .ok n)
  write := fun d n => (⟨d.data, d.size, d.pos + n⟩, .ok n)
  seek := fun d p => (⟨d.data, d.size, p⟩, .ok p)

/-- The partition window (`Partition`): absolute `start_pos` and
`end_pos` on the underlying device, and the window's own relative
cursor `pos`. The exclusively borrowed device is passed explicitly to
each operation instead of being stored. -/
structure Partition where
  start_pos : Nat
  end_pos : Nat
  pos : Nat
  deriving DecidableEq

/-- Create a new partition window (`Partition::new`): seeks the
underlying device to the start of the partition; a device seek error
prevents construction. -/
def Partition.new (io : IoModel σ) (start_pos end_pos : Nat) (s : σ) :
    Option Partition × σ :=
  let res := io.seek s start_pos
  match res.2 with
  | .ok _ => (some ⟨start_pos, end_pos, 0⟩, res.1)
  | .error _ => (none, res.1)

/-- Length of the partition in bytes (`Partition::len`). -/
def Partition.len (p : Partition) : Nat :=
  u64sub p.end_pos p.start_pos

/-- Read through the partition window (`Partition::read` of the `Read`
impl), abstracted over the buffer's contents: `buflen` is `buf.len()`,
and the result records how the clamped slice request fares on the
underlying device. The cursor is advanced by the clamped length before
the delegated read. -/
def Partition.read (io : IoModel σ) (p : Partition) (s : σ) (buflen : Nat) :
    Partition × σ × Except Unit Nat :=
  let available := u64sub (Partition.len p) p.pos
  let dlen := if buflen < available then buflen else available
  let res := io.read s dlen
  (⟨p.start_pos, p.end_pos, u64add p.pos dlen⟩, res.1, res.2)

/-- Write through the partition window (`Partition::write` of the
`Write` impl), symmetric to `Partition.read`. -/
def Partition.write (io : IoModel σ) (p : Partition) (s : σ) (buflen : Nat) :
    Partition × σ × Except Unit Nat :=
  let available := u64sub (Partition.len p) p.pos
  let dlen := if buflen < available then buflen else available
  let res := io.write s dlen
  (⟨p.start_pos, p.end_pos, u64add p.pos dlen⟩, res.1, res.2)

/-- The three seek origins of `embedded_io::SeekFrom`. -/
inductive SeekFrom where
  | fromStart (pos : Nat)
  | fromCurrent (pos : Int)
  | fromEnd (pos : Int)

/-- The relative target the source's `Partition::seek` computes for
each origin, transcribed literally: in the `Current` arm the match
binder `pos` (the offset) shadows the window cursor `self.pos`, so the
source's `(pos as i64) + pos` adds the offset to itself. -/
def Partition.seekTarget (p : Partition) (f : SeekFrom) : Nat :=
  match f with
  | .fromStart pos => min pos (Partition.len p)
  | .fromCurrent pos =>
      i64_as_u64 (max (min (wrapI64 (pos + pos)) (u64_as_i64 (Partition.len p))) 0)
  | .fromEnd pos =>
      i64_as_u64 (max (min (wrapI64 (u64_as_i64 (Partition.len p) + pos)) (u64_as_i64 (Partition.len p))) 0)

/-- Seek through the partition window (`Partition::seek` of the `Seek`
impl): the cursor is set to the computed relative target, the
underlying device is sought to `start_pos + target`, and on success
the relative target is returned; an underlying error is propagated
after the cursor was already updated. -/
def Partition.seek (io : IoModel σ) (p : Partition) (s : σ) (f : SeekFrom) :
    Partition × σ × Except Unit Nat :=
  let t := Partition.seekTarget p f
  let res := io.seek s (u64add p.start_pos t)
  match res.2 with
  | .ok _ => (⟨p.start_pos, p.end_pos, t⟩, res.1, .ok t)
  | .error e => (⟨p.start_pos, p.end_pos, t⟩, res.1, .error e)

/-- ID of each partition (`PartitionId`): the only four slot values. -/
inductive PartitionId where
  | one
  | two
  | three
  | four

/-- The `repr(usize)` discriminant of a `PartitionId` (`id as usize`). -/
def PartitionId.toIdx : PartitionId → Nat
  | .one => 0
  | .two => 1
  | .three => 2
  | .four => 3

/-- The decoded MBR partition table (the `partitions` array of `MBR`);
the exclusively owned device is passed explicitly to each operation
instead of being stored. -/
structure MBR where
  p0 : PartitionRecord
  p1 : PartitionRecord
  p2 : PartitionRecord
  p3 : PartitionRecord
  deriving DecidableEq

/-- Indexing into the fixed four-record table (`self.partitions[i]`
for an index already known to be in bounds). -/
def MBR.get (m : MBR) (i : Fin 4) : PartitionRecord :=
  if i.val = 0 then m.p0
  else if i.val = 1 then m.p1
  else if i.val = 2 then m.p2
  else m.p3

/-- Create a new MBR from a device (`MBR::new`): seek to
`RECORDS_START`, read the 64-byte record region — the count returned
by the read is discarded, exactly as the source's `io.read(&mut
buffer)?` discards it — and decode the four 16-byte slices. A decode
panic (unknown partition-type byte) is modelled as `none`. -/
def MBR.new (d : Dev) : Option (MBR × Dev) :=
  let s1 := d.seek RECORDS_START
  let r := s1.1.read (RECORD_LEN * RECORD_COUNT)
  let buffer := r.2.1
  match PartitionRecord.from_bytes (fun j => buffer (0 * RECORD_LEN + j)),
        PartitionRecord.from_bytes (fun j => buffer (1 * RECORD_LEN + j)),
        PartitionRecord.from_bytes (fun j => buffer (2 * RECORD_LEN + j)),
        PartitionRecord.from_bytes (fun j => buffer (3 * RECORD_LEN + j)) with
  | some r0, some r1, some r2, some r3 => some (⟨r0, r1, r2, r3⟩, r.1)
  | _, _, _, _ => none

/-- Get a partition window from the MBR at a raw slot index
(`MBR::get_partition` with the array access `self.partitions[id as
usize]` made explicit over an arbitrary index): an in-bounds index
builds the window, seeking the device to the partition start; an
out-of-bounds index fails the bounds check of the array access —
modelled as `none` — before any device operation, so the device is
returned untouched. -/
def MBR.get_partition_at (m : MBR) (d : Dev) (i : Nat) :
    Option Partition × Dev :=
  if h : i < 4 then
    let r := m.get ⟨i, h⟩
    Partition.new ioDev r.get_start_pos r.get_end_pos d
  else (none, d)

/-- Get a partition from the MBR (`MBR::get_partition`), taking the
four-valued `PartitionId` as the source does. -/
def MBR.get_partition (m : MBR) (d : Dev) (id : PartitionId) :
    Option Partition × Dev :=
  MBR.get_partition_at m d id.toIdx

/-- Get the partition type from the MBR (`MBR::get_partition_type`). -/
def MBR.get_partition_type (m : MBR) (id : PartitionId) : PartitionType :=
  (m.get ⟨id.toIdx, by cases id <;> simp [PartitionId.toIdx]⟩).get_partition_type

/-- Check whether a partition is bootable (`MBR::is_partition_bootable`). -/
def MBR.is_partition_bootable (m : MBR) (id : PartitionId) : Bool :=
  (m.get ⟨id.toIdx, by cases id <;> simp [PartitionId.toIdx]⟩).is_bootable

/-- An all-zero backing device of 600 bytes, large enough to hold the
whole record region; used to run the decoder on a concrete input. -/
def dev0 : Dev := ⟨fun _ => 0, 600, 0⟩

/-- A backing device that ends exactly where the record region begins,
so the 64-byte record read returns zero bytes. -/
def devShort : Dev := ⟨fun _ => 0, 0x1be, 0⟩

/-- The record decoded from 16 zero bytes. -/
def rec0 : PartitionRecord := ⟨0, 0, .Unknown, false⟩

/-- The table decoded from an all-zero record region. -/
def tbl0 : MBR := ⟨rec0, rec0, rec0, rec0⟩

/-- A 100-byte window with its cursor at 10, the concrete input of the
seek-from-current counterexample. -/
def pC1 : Partition := ⟨0, 100, 10⟩

/-- A 100-byte window with its cursor at 40, used in witnesses. -/
def pW : Partition := ⟨0, 100, 40⟩

/-- A 100-byte window with its cursor at the end, used in witnesses. -/
def pE : Partition := ⟨0, 100, 100⟩

/-- Record bytes whose boot-indicator byte is `0x80` and all other
bytes zero. -/
def bootBytes : Nat → Nat := fun j => if j = 0 then 0x80 else 0

/-- The record decoded from `bootBytes`. -/
def recB : PartitionRecord := ⟨0, 0, .Unknown, true⟩

/-- The window invariant: well-formed `u64` bounds in order, and the
cursor inside `[0, len]`. -/
def Partition.WF (p : Partition) : Prop :=
  p.start_pos ≤ p.end_pos ∧ p.end_pos < U64_MOD ∧ p.pos ≤ Partition.len p

instance (p : Partition) : Decidable (Partition.WF p) := by
  unfold Partition.WF
  infer_instance

/-- The source's clamp `if buflen < available { buflen } else
{ available }` is the minimum of the two. -/
theorem clamp_eq_min (n a : Nat) : (if n < a then n else a) = min n a := by
  split <;> omega

/-- A window length is always a valid `u64` value. -/
theorem Partition.len_lt (p : Partition) : Partition.len p < U64_MOD := by
  unfold Partition.len u64sub
  exact Nat.mod_lt _ (by norm_num [U64_MOD])

/-- Clamping any `i64` to `[0, len as i64]` and casting back to `u64`
lands at or below `len`. -/
theorem i64_clamp_le (X : Int) (L : Nat) (h : L < U64_MOD) :
    i64_as_u64 (max (min X (u64_as_i64 L)) 0) ≤ L := by
  simp only [i64_as_u64, u64_as_i64, wrapI64, U64_MOD] at *
  omega

/-- The relative seek target never exceeds the window length, for any
origin and offset. -/
theorem Partition.seekTarget_le_len (p : Partition) (f : SeekFrom) :
    Partition.seekTarget p f ≤ Partition.len p := by
  cases f with
  | fromStart pos => exact Nat.min_le_right _ _
  | fromCurrent pos => exact i64_clamp_le _ _ (Partition.len_lt p)
  | fromEnd pos => exact i64_clamp_le _ _ (Partition.len_lt p)

/-- A seek always leaves the window with unchanged bounds and its
cursor at the computed relative target, whatever the device answers. -/
theorem Partition.seek_fst (io : IoModel σ) (p : Partition) (s : σ) (f : SeekFrom) :
    (Partition.seek io p s f).1 = ⟨p.start_pos, p.end_pos, Partition.seekTarget p f⟩ := by
  simp only [Partition.seek]
  split <;> rfl

/-- A successful seek reports exactly the computed relative target. -/
theorem Partition.seek_ok (io : IoModel σ) (p : Partition) (s : σ) (f : SeekFrom)
    (v : Nat) (h : (Partition.seek io p s f).2.2 = .ok v) :
    v = Partition.seekTarget p f := by
  simp only [Partition.seek] at h
  split at h <;> simp_all

/-- C1: the claim fails on the code. In `Partition::seek`, origin
`Current`, the arm binder `pos` (the offset) shadows the window cursor
`self.pos`, so the source computes `clamp(offset + offset, 0, len)`.
At the failing input — window of length 100, cursor at 10, offset +3 —
the seek succeeds and reports position 6, while the claimed
`clamp(pos + offset, 0, length)` is 13. -/
theorem seek_current_uses_doubled_offset :
    (Partition.seek ioDev pC1 dev0 (.fromCurrent 3)).1.pos = 6 ∧
    (Partition.seek ioDev pC1 dev0 (.fromCurrent 3)).2.2 = .ok 6 ∧
    min (pC1.pos + 3) (Partition.len pC1) = 13 ∧ (6 : Nat) ≠ 13 :=
  ⟨rfl, rfl, by decide, by decide⟩

/-- C2: the claim fails on the code. On a device that ends at
`RECORDS_START`, the 64-byte record read returns 0 bytes, yet
`MBR::new` succeeds and produces a table decoded from the
zero-initialised buffer: the byte count returned by `read` is
discarded, so no short-read check exists. -/
theorem mbr_new_accepts_short_read :
    ((Dev.seek devShort RECORDS_START).1.read (RECORD_LEN * RECORD_COUNT)).2.2 = 0 ∧
    MBR.new devShort = some (tbl0, ⟨fun _ => 0, 0x1be, 0x1be⟩) :=
  ⟨rfl, rfl⟩

/-- C3: decoding a 16-byte record whose system-id byte has no
`PartitionType` mapping always fails (the source's fallible conversion
has no success to unwrap, modelled as `none`), and a record that does
decode carries exactly the type mapped from its system-id byte — the
byte is never silently coerced to `Unknown`. -/
theorem unknown_type_byte_fails_decode :
    (∀ bytes : Nat → Nat, partitionTypeFromByte (bytes 4) = none →
      PartitionRecord.from_bytes bytes = none) ∧
    (∀ (bytes : Nat → Nat) (r : PartitionRecord),
      PartitionRecord.from_bytes bytes = some r →
      partitionTypeFromByte (bytes 4) = some r.partition_type) := by
  constructor
  · intro bytes h
    simp [PartitionRecord.from_bytes, h]
  · intro bytes r h
    simp only [PartitionRecord.from_bytes] at h
    rcases hb : partitionTypeFromByte (bytes 4) with _ | t <;> rw [hb] at h
    · cases h
    · cases h
      rfl

/-- C3 witness: byte `0x0d` has no mapping in the partition-type
table, and a record whose bytes are all `0x0d` indeed fails to
decode. -/
theorem unknown_type_byte_fails_decode_witness :
    PartitionRecord.from_bytes (fun _ => 0x0d) = none :=
  unknown_type_byte_fails_decode.1 (fun _ => 0x0d) (by decide)

/-- C8: for every successfully decoded record, the boot flag is true
exactly when the record's boot-indicator byte equals `0x80`; any other
byte value decodes as not-bootable. -/
theorem bootable_iff_boot_byte :
    ∀ (bytes : Nat → Nat) (r : PartitionRecord),
      PartitionRecord.from_bytes bytes = some r →
      (r.is_bootable = true ↔ bytes 0 = 0x80) := by
  intro bytes r h
  simp only [PartitionRecord.from_bytes] at h
  rcases hb : partitionTypeFromByte (bytes 4) with _ | t <;> rw [hb] at h
  · cases h
  · cases h
    simp [PartitionRecord.is_bootable, beq_iff_eq]

/-- C8 witness: the record decoded from bytes with boot indicator
`0x80` reports bootable. -/
theorem bootable_iff_boot_byte_witness :
    recB.is_bootable = true ↔ bootBytes 0 = 0x80 :=
  bootable_iff_boot_byte bootBytes recB (by rfl)

/-- C9: requesting a partition at a raw slot index of 4 or more fails
the bounds check of the record-array access before any device
operation — the device state is returned untouched — and through the
public API the slot type `PartitionId` can only denote the in-range
indices 0 to 3. -/
theorem out_of_range_slot_fails_without_io :
    (∀ (m : MBR) (d : Dev) (i : Nat), 4 ≤ i →
      MBR.get_partition_at m d i = (none, d)) ∧
    (∀ id : PartitionId, PartitionId.toIdx id < 4) := by
  constructor
  · intro m d i h
    unfold MBR.get_partition_at
    rw [dif_neg (by omega)]
  · intro id
    cases id <;> simp [PartitionId.toIdx]

/-- C9 witness: slot 4 on the concrete zero table fails and leaves the
concrete device untouched. -/
theorem out_of_range_slot_fails_without_io_witness :
    MBR.get_partition_at tbl0 dev0 4 = (none, dev0) ∧ PartitionId.toIdx .one < 4 :=
  ⟨out_of_range_slot_fails_without_io.1 tbl0 dev0 4 (by decide),
   out_of_range_slot_fails_without_io.2 .one⟩

/-- C5: for every origin and offset, a seek leaves the window cursor
at or below the partition length (and at or above 0, trivially for a
`Nat` cursor), and a successful seek returns exactly that cursor. -/
theorem seek_pos_in_bounds :
    ∀ (σ : Type) (io : IoModel σ) (p : Partition) (s : σ) (f : SeekFrom),
      (Partition.seek io p s f).1.pos ≤ Partition.len p ∧
      (∀ v, (Partition.seek io p s f).2.2 = .ok v →
        v = (Partition.seek io p s f).1.pos) := by
  intro σ io p s f
  constructor
  · rw [Partition.seek_fst]
    exact Partition.seekTarget_le_len p f
  · intro v hv
    rw [Partition.seek_fst]
    exact Partition.seek_ok io p s f v hv

/-- C5 witness: seeking `End(-5)` on the concrete 100-byte window with
cursor 40 stays within bounds and reports the new cursor, 95. -/
theorem seek_pos_in_bounds_witness :
    (Partition.seek ioDev pW dev0 (.fromEnd (-5))).1.pos ≤ Partition.len pW ∧
    95 = (Partition.seek ioDev pW dev0 (.fromEnd (-5))).1.pos :=
  ⟨(seek_pos_in_bounds Dev ioDev pW dev0 (.fromEnd (-5))).1,
   (seek_pos_in_bounds Dev ioDev pW dev0 (.fromEnd (-5))).2 95 (by rfl)⟩

/-- C6: for every underlying device model — including one whose
operations fail or report short counts — a window read or write sets
the cursor to `pos + clamped-length` where the clamp is the minimum of
the buffer length and `len - pos`, and hands back whatever the
underlying device answered for exactly that clamped request. -/
theorem cursor_advances_by_clamped_length :
    ∀ (σ : Type) (io : IoModel σ) (p : Partition) (s : σ) (n : Nat),
      (Partition.read io p s n).1.pos =
        u64add p.pos (min n (u64sub (Partition.len p) p.pos)) ∧
      (Partition.read io p s n).2.2 =
        (io.read s (min n (u64sub (Partition.len p) p.pos))).2 ∧
      (Partition.write io p s n).1.pos =
        u64add p.pos (min n (u64sub (Partition.len p) p.pos)) ∧
      (Partition.write io p s n).2.2 =
        (io.write s (min n (u64sub (Partition.len p) p.pos))).2 := by
  intro σ io p s n
  simp only [Partition.read, Partition.write, clamp_eq_min]
  simp

/-- Wrapping `u64` subtraction agrees with exact subtraction when the
subtrahend is no larger and the minuend is a valid `u64`. -/
theorem avail_eq (L pos : Nat) (hL : L < U64_MOD) (hp : pos ≤ L) :
    u64sub L pos = L - pos := by
  unfold u64sub U64_MOD at *
  omega

/-- C4: on a fully-responsive device, a read or write whose buffer
exceeds `len - pos` delegates and transfers exactly `len - pos` bytes
and leaves the cursor at `len`; issued at `pos = len`, it is clamped
to a zero-length operation that succeeds with zero bytes and leaves
the cursor in place. -/
theorem read_write_clamped_to_available :
    (∀ (p : Partition) (d : Dev) (n : Nat), p.pos ≤ Partition.len p →
      Partition.len p - p.pos < n →
      (Partition.read ioDev p d n).1.pos = Partition.len p ∧
      (Partition.read ioDev p d n).2.2 = .ok (Partition.len p - p.pos) ∧
      (Partition.write ioDev p d n).1.pos = Partition.len p ∧
      (Partition.write ioDev p d n).2.2 = .ok (Partition.len p - p.pos)) ∧
    (∀ (p : Partition) (d : Dev) (n : Nat), p.pos = Partition.len p →
      (Partition.read ioDev p d n).1.pos = p.pos ∧
      (Partition.read ioDev p d n).2.2 = .ok 0 ∧
      (Partition.write ioDev p d n).1.pos = p.pos ∧
      (Partition.write ioDev p d n).2.2 = .ok 0) := by
  constructor
  · intro p d n hp hn
    have hL := Partition.len_lt p
    have ha : u64sub (Partition.len p) p.pos = Partition.len p - p.pos :=
      avail_eq _ _ hL hp
    have hd : (if n < u64sub (Partition.len p) p.pos then n
        else u64sub (Partition.len p) p.pos) = Partition.len p - p.pos := by
      rw [ha]
      split <;> omega
    have hpos : u64add p.pos (Partition.len p - p.pos) = Partition.len p := by
      unfold u64add U64_MOD at *
      omega
    simp only [Partition.read, Partition.write, ioDev, hd, hpos]
    simp
  · intro p d n hp
    have hL := Partition.len_lt p
    have ha : u64sub (Partition.len p) p.pos = 0 := by
      unfold u64sub U64_MOD at *
      omega
    have hd : (if n < u64sub (Partition.len p) p.pos then n
        else u64sub (Partition.len p) p.pos) = 0 := by
      rw [ha]
      split <;> omega
    have hpos : u64add p.pos 0 = p.pos := by
      unfold u64add U64_MOD at *
      omega
    simp only [Partition.read, Partition.write, ioDev, hd, hpos]
    simp

/-- C4 witness: on the 100-byte window with cursor 40, a 200-byte
request transfers 60 bytes and lands the cursor at 100; at the end of
the window, a 7-byte request transfers zero bytes and succeeds. -/
theorem read_write_clamped_to_available_witness :
    ((Partition.read ioDev pW dev0 200).1.pos = Partition.len pW ∧
     (Partition.read ioDev pW dev0 200).2.2 = .ok (Partition.len pW - pW.pos) ∧
     (Partition.write ioDev pW dev0 200).1.pos = Partition.len pW ∧
     (Partition.write ioDev pW dev0 200).2.2 = .ok (Partition.len pW - pW.pos)) ∧
    ((Partition.read ioDev pE dev0 7).1.pos = pE.pos ∧
     (Partition.read ioDev pE dev0 7).2.2 = .ok 0 ∧
     (Partition.write ioDev pE dev0 7).1.pos = pE.pos ∧
     (Partition.write ioDev pE dev0 7).2.2 = .ok 0) :=
  ⟨read_write_clamped_to_available.1 pW dev0 200 (by decide) (by decide),
   read_write_clamped_to_available.2 pE dev0 7 (by decide)⟩

/-- C10: the window invariant — ordered `u64` bounds and cursor within
`[0, len]` — holds after construction and is preserved by read, write
and seek; under it the `len() - pos` subtraction of read and write is
exact (no underflow) and the clamped slice never exceeds the caller's
buffer, so the slicing is in bounds. -/
theorem window_invariant_preserved :
    (∀ (σ : Type) (io : IoModel σ) (a b : Nat) (s : σ) (p : Partition) (s' : σ),
      a ≤ b → b < U64_MOD → Partition.new io a b s = (some p, s') →
      Partition.WF p) ∧
    (∀ (σ : Type) (io : IoModel σ) (p : Partition) (s : σ) (n : Nat),
      Partition.WF p →
      Partition.WF (Partition.read io p s n).1 ∧
      u64sub (Partition.len p) p.pos = Partition.len p - p.pos ∧
      (if n < u64sub (Partition.len p) p.pos then n
        else u64sub (Partition.len p) p.pos) ≤ n) ∧
    (∀ (σ : Type) (io : IoModel σ) (p : Partition) (s : σ) (n : Nat),
      Partition.WF p →
      Partition.WF (Partition.write io p s n).1 ∧
      (if n < u64sub (Partition.len p) p.pos then n
        else u64sub (Partition.len p) p.pos) ≤ n) ∧
    (∀ (σ : Type) (io : IoModel σ) (p : Partition) (s : σ) (f : SeekFrom),
      Partition.WF p → Partition.WF (Partition.seek io p s f).1) := by
  refine ⟨?_, ?_, ?_, ?_⟩
  · intro σ io a b s p s' hab hb h
    simp only [Partition.new] at h
    split at h
    · injection h with h1 h2
      injection h1 with h3
      subst h3
      exact ⟨hab, hb, Nat.zero_le _⟩
    · injection h with h1 h2
      cases h1
  · intro σ io p s n hwf
    obtain ⟨h1, h2, h3⟩ := hwf
    have hL := Partition.len_lt p
    refine ⟨⟨h1, h2, ?_⟩, avail_eq _ _ hL h3, by split <;> omega⟩
    show u64add p.pos (if n < u64sub (Partition.len p) p.pos then n
      else u64sub (Partition.len p) p.pos) ≤ Partition.len p
    simp only [Partition.len, u64add, u64sub, U64_MOD] at *
    split <;> omega
  · intro σ io p s n hwf
    obtain ⟨h1, h2, h3⟩ := hwf
    have hL := Partition.len_lt p
    refine ⟨⟨h1, h2, ?_⟩, by split <;> omega⟩
    show u64add p.pos (if n < u64sub (Partition.len p) p.pos then n
      else u64sub (Partition.len p) p.pos) ≤ Partition.len p
    simp only [Partition.len, u64add, u64sub, U64_MOD] at *
    split <;> omega
  · intro σ io p s f hwf
    obtain ⟨h1, h2, h3⟩ := hwf
    rw [Partition.seek_fst]
    exact ⟨h1, h2, Partition.seekTarget_le_len p f⟩

/-- C10 witness: the invariant holds for the freshly constructed
100-byte window and is preserved by a concrete clamped read, write and
seek on the window with cursor 40. -/
theorem window_invariant_preserved_witness :
    Partition.WF ⟨0, 100, 0⟩ ∧
    Partition.WF (Partition.read ioDev pW dev0 200).1 ∧
    u64sub (Partition.len pW) pW.pos = Partition.len pW - pW.pos ∧
    Partition.WF (Partition.write ioDev pW dev0 200).1 ∧
    Partition.WF (Partition.seek ioDev pW dev0 (.fromEnd (-5))).1 :=
  ⟨window_invariant_preserved.1 Dev ioDev 0 100 dev0 ⟨0, 100, 0⟩ dev0
      (by decide) (by decide) (by rfl),
   (window_invariant_preserved.2.1 Dev ioDev pW dev0 200 (by decide)).1,
   (window_invariant_preserved.2.1 Dev ioDev pW dev0 200 (by decide)).2.1,
   (window_invariant_preserved.2.2.1 Dev ioDev pW dev0 200 (by decide)).1,
   window_invariant_preserved.2.2.2 Dev ioDev pW dev0 (.fromEnd (-5)) (by decide)⟩

/-- Every byte of the buffer produced by a device read is below 256. -/
theorem Dev.read_buffer_lt (d : Dev) (n j : Nat) : (Dev.read d n).2.1 j < 256 := by
  unfold Dev.read
  dsimp only
  split
  · exact Nat.mod_lt _ (by norm_num)
  · norm_num

/-- A little-endian 32-bit value assembled from four bytes fits in 32
bits. -/
theorem from_le_bytes_lt (a b c d : Nat) (ha : a < 256) (hb : b < 256)
    (hc : c < 256) (hd : d < 256) : from_le_bytes a b c d < 2 ^ 32 := by
  unfold from_le_bytes
  omega

/-- The sector fields of a record decoded from genuine bytes are
32-bit values. -/
theorem from_bytes_fields_lt (bytes : Nat → Nat) (hb : ∀ j, bytes j < 256)
    (r : PartitionRecord) (h : PartitionRecord.from_bytes bytes = some r) :
    r.relative_sector < 2 ^ 32 ∧ r.total_sectors < 2 ^ 32 := by
  simp only [PartitionRecord.from_bytes] at h
  rcases hpt : partitionTypeFromByte (bytes 4) with _ | t <;> rw [hpt] at h
  · cases h
  · cases h
    exact ⟨from_le_bytes_lt _ _ _ _ (hb 8) (hb 9) (hb 10) (hb 11),
           from_le_bytes_lt _ _ _ _ (hb 12) (hb 13) (hb 14) (hb 15)⟩

/-- Every record of a successfully decoded table has 32-bit sector
fields, because it was decoded from buffer bytes. -/
theorem mbr_new_fields_lt (d : Dev) (m : MBR) (d' : Dev)
    (h : MBR.new d = some (m, d')) (i : Fin 4) :
    (m.get i).relative_sector < 2 ^ 32 ∧ (m.get i).total_sectors < 2 ^ 32 := by
  unfold MBR.new at h
  simp only [] at h
  rcases h0 : PartitionRecord.from_bytes (fun j =>
    ((Dev.seek d RECORDS_START).1.read (RECORD_LEN * RECORD_COUNT)).2.1
      (0 * RECORD_LEN + j)) with _ | r0
  all_goals rcases h1 : PartitionRecord.from_bytes (fun j =>
    ((Dev.seek d RECORDS_START).1.read (RECORD_LEN * RECORD_COUNT)).2.1
      (1 * RECORD_LEN + j)) with _ | r1
  all_goals rcases h2 : PartitionRecord.from_bytes (fun j =>
    ((Dev.seek d RECORDS_START).1.read (RECORD_LEN * RECORD_COUNT)).2.1
      (2 * RECORD_LEN + j)) with _ | r2
  all_goals rcases h3 : PartitionRecord.from_bytes (fun j =>
    ((Dev.seek d RECORDS_START).1.read (RECORD_LEN * RECORD_COUNT)).2.1
      (3 * RECORD_LEN + j)) with _ | r3
  all_goals rw [h0, h1, h2, h3] at h
  all_goals simp only [] at h
  all_goals try exact Option.noConfusion h
  injection h with hm
  injection hm with hma hmb
  subst hma
  fin_cases i
  · exact from_bytes_fields_lt _ (fun j => Dev.read_buffer_lt _ _ _) _ h0
  · exact from_bytes_fields_lt _ (fun j => Dev.read_buffer_lt _ _ _) _ h1
  · exact from_bytes_fields_lt _ (fun j => Dev.read_buffer_lt _ _ _) _ h2
  · exact from_bytes_fields_lt _ (fun j => Dev.read_buffer_lt _ _ _) _ h3

/-- On the fully-responsive device model, window construction always
succeeds and seeks the device to the window start. -/
theorem Partition.new_ioDev (a b : Nat) (d : Dev) :
    Partition.new ioDev a b d = (some ⟨a, b, 0⟩, ⟨d.data, d.size, a⟩) := rfl

/-- C7: for every slot of a successfully decoded table, the partition
window built for that slot has byte length exactly `total_sectors ×
512`: the 32-bit sector fields make the `u64` multiplication and
addition in `lba_to_u64` and `get_end_pos` exact, so the subtraction
in `len` recovers the product with no overflow. -/
theorem partition_len_eq_total_sectors_times_512 :
    ∀ (d : Dev) (m : MBR) (d' : Dev), MBR.new d = some (m, d') →
    ∀ (i : Fin 4) (d2 : Dev) (part : Partition) (d3 : Dev),
      MBR.get_partition_at m d2 i.val = (some part, d3) →
      Partition.len part = (m.get i).total_sectors * BLOCK_SIZE := by
  intro d m d' h i d2 part d3 hg
  obtain ⟨hrel, htot⟩ := mbr_new_fields_lt d m d' h i
  have hi : i.val < 4 := i.isLt
  unfold MBR.get_partition_at at hg
  rw [dif_pos hi] at hg
  simp only [] at hg
  have he : (⟨i.val, hi⟩ : Fin 4) = i := rfl
  rw [he] at hg
  rw [Partition.new_ioDev] at hg
  clear h he
  injection hg with hg1 hg2
  injection hg1 with hg3
  subst hg3
  simp only [Partition.len, PartitionRecord.get_start_pos,
    PartitionRecord.get_end_pos, lba_to_u64, u64mul, u64add, u64sub,
    BLOCK_SIZE, U64_MOD] at *
  omega

/-- C7 witness: on the concrete all-zero device the table decodes, and
slot 0 yields a window of length `0 × 512`. -/
theorem partition_len_eq_total_sectors_times_512_witness :
    Partition.len ⟨0, 0, 0⟩ = (tbl0.get 0).total_sectors * BLOCK_SIZE :=
  partition_len_eq_total_sectors_times_512 dev0 tbl0 ⟨fun _ => 0, 600, 510⟩
    (by rfl) 0 dev0 ⟨0, 0, 0⟩ ⟨fun _ => 0, 600, 0⟩ (by rfl)
